import Mathlib

/-!
Verification of the Gracy Boys quotation application.

Shallow embedding of the quotation pricing engine, document model, draft
editor operations, dashboard aggregator and storage handlers found in
`src/index.js` and `src/server.js`.

Modelling conventions:
* JavaScript numbers are modelled as exact rationals (`ℚ`); `x.toFixed(2)`
  followed by `parseFloat` is modelled as exact decimal rounding, half away
  from zero upwards (`round2`).
* Values that JavaScript may leave `undefined` or `NaN` are modelled as
  `Option ℚ` (`none` = missing / not a number).
* `crypto.randomUUID()` and the current date are nondeterministic inputs;
  they are passed in as explicit parameters.
* String operations (`toLowerCase`, `includes`, regex `(\d+)$`,
  `padStart(4, '0')`) are modelled character-by-character over `List Char`.
-/

/-- Exact decimal rounding to 2 places: models `parseFloat(x.toFixed(2))`
(rounding half up) applied to an ideal real-valued intermediate. -/
def round2 (x : ℚ) : ℚ := ((⌊x * 100 + 1 / 2⌋ : ℤ) : ℚ) / 100

/-- One priced row of a quotation (see `getDefaultItem` in src/index.js). -/
structure LineItem where
  id : String
  requirement : String
  qty : ℚ
  unitPrice : ℚ
  remark : String
  amount : ℚ
deriving DecidableEq

/-- The quotation document (fields built by `getNewQuotation` in
src/index.js plus the stored derived totals).  `createdAt`/`updatedAt` hold
the millisecond timestamp of the corresponding `Date`; `none` models a
missing or unparseable value.  The derived totals are `Option ℚ` because a
stored record may lack them or hold a non-numeric value. -/
structure Quotation where
  id : String
  clientName : String
  companyName : String
  address : String
  contactNumber : String
  quotationNumber : String
  dateIssued : String
  validUntil : String
  items : List LineItem
  taxRate : ℚ
  discount : ℚ
  status : String
  terms : String
  notes : String
  createdAt : Option ℚ
  updatedAt : Option ℚ
  subtotal : Option ℚ
  taxAmount : Option ℚ
  grandTotal : Option ℚ
deriving DecidableEq

/-- A blank quotation record, used to build concrete test values. -/
def emptyQuotation : Quotation :=
  { id := "", clientName := "", companyName := "", address := "",
    contactNumber := "", quotationNumber := "", dateIssued := "",
    validUntil := "", items := [], taxRate := 0, discount := 0,
    status := "Draft", terms := "", notes := "", createdAt := none,
    updatedAt := none, subtotal := none, taxAmount := none,
    grandTotal := none }

/-- Result of the totals computation (the object returned by
`useQuotationCalculations`). -/
structure Totals where
  subtotal : ℚ
  taxAmount : ℚ
  grandTotal : ℚ
deriving DecidableEq

/-- The derived-totals computation, from `useQuotationCalculations`
(src/index.js lines 115-132).  The `useMemo` wrapper is pure memoization of
this function of `(items, taxRate, discount)`.  The `(item.qty || 0)` and
`(quotation.discount || 0)` guards are identities on `ℚ` (they only replace
a missing/NaN value, modelled away here, or `0` by `0`). -/
def useQuotationCalculations (q : Quotation) : Totals :=
  let subtotal := q.items.foldl (fun sum item => sum + item.qty * item.unitPrice) 0
  let taxAmount := subtotal * (q.taxRate / 100)
  let totalBeforeDiscount := subtotal + taxAmount
  let grandTotal := totalBeforeDiscount - q.discount
  { subtotal := round2 subtotal
    taxAmount := round2 taxAmount
    grandTotal := round2 (max 0 grandTotal) }

/-- The unrounded sum of `qty * unitPrice` over the items (the `subtotal`
accumulator inside `useQuotationCalculations` before `toFixed`). -/
def rawSubtotal (q : Quotation) : ℚ :=
  q.items.foldl (fun sum item => sum + item.qty * item.unitPrice) 0

/-- The default line item, from `getDefaultItem` (src/index.js lines
23-30); `crypto.randomUUID()` is passed in as `freshId`. -/
def getDefaultItem (freshId : String) : LineItem :=
  { id := freshId, requirement := "", qty := 1, unitPrice := 0,
    remark := "", amount := 0 }

-- Helper lemmas about `round2`.

theorem round2_zero : round2 0 = 0 := by norm_num [round2]

theorem round2_mono {x y : ℚ} (h : x ≤ y) : round2 x ≤ round2 y := by
  unfold round2
  have hf : ⌊x * 100 + 1 / 2⌋ ≤ ⌊y * 100 + 1 / 2⌋ :=
    Int.floor_le_floor (by linarith)
  have hq : ((⌊x * 100 + 1 / 2⌋ : ℤ) : ℚ) ≤ ((⌊y * 100 + 1 / 2⌋ : ℤ) : ℚ) := by
    exact_mod_cast hf
  linarith

theorem round2_max (x : ℚ) : round2 (max 0 x) = max 0 (round2 x) := by
  rcases le_total x 0 with h | h
  · rw [max_eq_left h, round2_zero, eq_comm]
    rw [max_eq_left]
    have h2 := round2_mono h
    rwa [round2_zero] at h2
  · rw [max_eq_right h, eq_comm]
    rw [max_eq_right]
    have h2 := round2_mono h
    rwa [round2_zero] at h2

-- C1: the derived-totals computation.

/-- Concrete input refuting C1: one item `qty = 1`, `unitPrice = 0.006`,
`taxRate = 0`, `discount = 0.004`. -/
def c1Q : Quotation :=
  { emptyQuotation with
    items := [{ id := "A", requirement := "", qty := 1, unitPrice := 3 / 500,
                remark := "", amount := 1 / 100 }],
    taxRate := 0, discount := 1 / 250 }

/-- C1 (counterexample): the claim computes `grandTotal` from the *rounded*
`subtotal` and `taxAmount` fields; the code uses the unrounded intermediates.
At `c1Q` the code returns `grandTotal = 0` (raw `0.006 - 0.004 = 0.002`
rounds to `0.00`) while the claim's formula gives
`max(0, round(0.01 + 0.00 - 0.004, 2)) = 0.01`. -/
theorem C1_cex :
    (useQuotationCalculations c1Q).grandTotal ≠
      max 0 (round2 ((useQuotationCalculations c1Q).subtotal +
        (useQuotationCalculations c1Q).taxAmount - c1Q.discount)) := by
  norm_num [useQuotationCalculations, c1Q, emptyQuotation, round2,
    List.foldl]

/-- C1 (amended): the totals computation returns
`subtotal = round2 (raw sum)`,
`taxAmount = round2 (rawSubtotal * taxRate / 100)` (tax computed from the
*unrounded* subtotal), and
`grandTotal = max 0 (round2 (rawSubtotal + rawTaxAmount - discount))`
(grand total computed from the unrounded intermediates); negative raw
totals clamp to zero rather than erroring. -/
theorem C1_amended (q : Quotation) :
    useQuotationCalculations q =
      { subtotal := round2 (rawSubtotal q)
        taxAmount := round2 (rawSubtotal q * q.taxRate / 100)
        grandTotal :=
          max 0 (round2 (rawSubtotal q + rawSubtotal q * q.taxRate / 100 -
            q.discount)) } := by
  simp only [useQuotationCalculations, rawSubtotal]
  rw [round2_max]
  rw [mul_div_assoc]

-- C5: the default line item.

/-- C5 (counterexample): `getDefaultItem` sets `qty` to `1`, not `0`, so the
claim that all numeric fields are zero fails. -/
theorem C5_cex : (getDefaultItem "fresh").qty ≠ 0 := by
  norm_num [getDefaultItem]

/-- C5 (amended): `createDefaultLineItem` returns a line item carrying the
supplied fresh id, `qty = 1`, `unitPrice = 0`, `amount = 0` (consistent with
`amount = round2 (qty * unitPrice)`), and empty text fields. -/
theorem C5_amended (freshId : String) :
    (getDefaultItem freshId).id = freshId ∧
    (getDefaultItem freshId).qty = 1 ∧
    (getDefaultItem freshId).unitPrice = 0 ∧
    (getDefaultItem freshId).amount = 0 ∧
    (getDefaultItem freshId).requirement = "" ∧
    (getDefaultItem freshId).remark = "" ∧
    (getDefaultItem freshId).amount =
      round2 ((getDefaultItem freshId).qty * (getDefaultItem freshId).unitPrice) := by
  refine ⟨rfl, rfl, rfl, rfl, rfl, rfl, ?_⟩
  norm_num [getDefaultItem, round2]

-- C2: quotation number assignment.

/-- The maximal trailing run of decimal digits of `s`, parsed as a number:
models `s.match(/(\d+)$/)` followed by `parseInt(match[1], 10)` (`none` when
the regex does not match, i.e. the string does not end in a digit). -/
def parseTrailingNat (s : String) : Option Nat :=
  let ds := (s.data.reverse.takeWhile Char.isDigit).reverse
  if ds.isEmpty then none
  else some (ds.foldl (fun n c => 10 * n + (c.toNat - '0'.toNat)) 0)

/-- The `maxNum` reduction in `handleNewQuotation` (src/index.js lines
686-690): fold over the collection, taking `Math.max` of the parsed
trailing digits, ignoring quotations whose number has none, starting at 0. -/
def maxQuotationSeq (qs : List Quotation) : Nat :=
  qs.foldl
    (fun m q =>
      match parseTrailingNat q.quotationNumber with
      | some n => max m n
      | none => m)
    0

/-- String(n).padStart(4, '0'). -/
def padStart4 (s : String) : String :=
  if s.length ≥ 4 then s else String.mk (List.replicate (4 - s.length) '0') ++ s

/-- A fresh quotation, from `getNewQuotation` (src/index.js lines 32-51).
The nondeterministic inputs (`crypto.randomUUID()` for the quotation and its
first item, the current year, the formatted current date and the formatted
date 30 days out, and the `createdAt` timestamp) are explicit parameters;
`count` is the caller-supplied running maximum. -/
def getNewQuotation (freshId itemId : String) (year : Nat)
    (today validDate : String) (now : ℚ) (count : Nat) : Quotation :=
  { id := freshId
    clientName := "New Client"
    companyName := ""
    address := ""
    contactNumber := ""
    quotationNumber := "QT-" ++ toString year ++ "-" ++ padStart4 (toString (count + 1))
    dateIssued := today
    validUntil := validDate
    items := [getDefaultItem itemId]
    taxRate := 18
    discount := 0
    status := "Draft"
    terms := "Payment due within 30 days. 50% advance required."
    notes := "Additional notes or special instructions for the event."
    createdAt := some now
    updatedAt := none
    subtotal := some 0
    taxAmount := none
    grandTotal := some 0 }

/-- Creation of a new quotation from the dashboard, from
`handleNewQuotation` (src/index.js lines 685-695): computes the running
maximum of the parsed trailing digits and passes it to `getNewQuotation`. -/
def handleNewQuotation (qs : List Quotation) (freshId itemId : String)
    (year : Nat) (today validDate : String) (now : ℚ) : Quotation :=
  getNewQuotation freshId itemId year today validDate now (maxQuotationSeq qs)

/-- Modelled from the claim's words: the next sequence number is the maximum
of the numbers parsed from the trailing digit runs of the existing
quotation numbers, plus one; quotations that do not parse are ignored, and
if none parse the sequence is 1. -/
def specNextSeq (qs : List Quotation) : Nat :=
  match qs.filterMap (fun q => parseTrailingNat q.quotationNumber) with
  | [] => 1
  | parsed => parsed.foldl max 0 + 1

theorem maxQuotationSeq_eq_foldl (qs : List Quotation) (m : Nat) :
    qs.foldl
      (fun m q =>
        match parseTrailingNat q.quotationNumber with
        | some n => max m n
        | none => m)
      m =
    (qs.filterMap (fun q => parseTrailingNat q.quotationNumber)).foldl max m := by
  induction qs generalizing m with
  | nil => rfl
  | cons q qs ih =>
    rcases hp : parseTrailingNat q.quotationNumber with _ | n <;>
      simp [List.filterMap_cons, hp, ih]

theorem specNextSeq_eq (qs : List Quotation) :
    specNextSeq qs =
      (qs.filterMap (fun q => parseTrailingNat q.quotationNumber)).foldl max 0 + 1 := by
  unfold specNextSeq
  rcases h : qs.filterMap (fun q => parseTrailingNat q.quotationNumber) with _ | ⟨a, l⟩ <;>
    simp [h]

/-- Two existing quotations, as in the spec's example. -/
def exQ1 : Quotation := { emptyQuotation with quotationNumber := "QT-2024-0001" }

/-- Second existing quotation of the spec's example. -/
def exQ7 : Quotation := { emptyQuotation with quotationNumber := "QT-2024-0007" }

/-- C2: creating a new quotation assigns
`QT-<year>-<pad4 (max parsed trailing digits + 1)>`, ignoring quotations
whose number has no trailing digit run and starting at 1 when none parse;
in particular existing `QT-2024-0001` and `QT-2024-0007` yield
`QT-2024-0008` and an empty collection yields `QT-2024-0001`. -/
theorem C2_numbering (qs : List Quotation) (freshId itemId : String)
    (year : Nat) (today validDate : String) (now : ℚ) :
    (handleNewQuotation qs freshId itemId year today validDate now).quotationNumber =
      "QT-" ++ toString year ++ "-" ++ padStart4 (toString (specNextSeq qs)) ∧
    (handleNewQuotation [exQ1, exQ7] freshId itemId 2024 today validDate now).quotationNumber =
      "QT-2024-0008" ∧
    (handleNewQuotation [] freshId itemId 2024 today validDate now).quotationNumber =
      "QT-2024-0001" := by
  refine ⟨?_, ?_, ?_⟩
  · show "QT-" ++ toString year ++ "-" ++ padStart4 (toString (maxQuotationSeq qs + 1)) = _
    rw [specNextSeq_eq]
    unfold maxQuotationSeq
    rw [maxQuotationSeq_eq_foldl]
  · show "QT-" ++ toString 2024 ++ "-" ++
      padStart4 (toString (maxQuotationSeq [exQ1, exQ7] + 1)) = _
    have h : maxQuotationSeq [exQ1, exQ7] = 7 := by decide
    rw [h]
    decide
  · show "QT-" ++ toString 2024 ++ "-" ++
      padStart4 (toString (maxQuotationSeq [] + 1)) = _
    decide

-- Draft editor operations (src/index.js lines 148-187).

/-- The numeric line-item fields reachable through `handleItemChange`'s
dynamic `[field]: numericValue` update (the UI invokes it for `qty` and
`unitPrice`; `amount` is included to state that it is not settable). -/
inductive ItemNumericField
  | qty
  | unitPrice
  | amount
deriving DecidableEq

/-- The `{...item, [field]: numericValue}` spread of `handleItemChange`. -/
def setNumericField (item : LineItem) (f : ItemNumericField) (v : ℚ) : LineItem :=
  match f with
  | .qty => { item with qty := v }
  | .unitPrice => { item with unitPrice := v }
  | .amount => { item with amount := v }

/-- The `newItem.amount = parseFloat((newItem.qty * newItem.unitPrice).toFixed(2))`
assignment of `handleItemChange`. -/
def recomputeAmount (item : LineItem) : LineItem :=
  { item with amount := round2 (item.qty * item.unitPrice) }

/-- The per-item body of `handleItemChange` (src/index.js lines 150-158):
on an id match, `parseFloat(value) || 0` (modelled as `value.getD 0`, with
`none` = NaN) is written into the field and `amount` is immediately
recomputed; otherwise the item is returned unchanged. -/
def editLineItem (itemId : String) (f : ItemNumericField) (value : Option ℚ)
    (item : LineItem) : LineItem :=
  if item.id == itemId then
    recomputeAmount (setNumericField item f (value.getD 0))
  else item

/-- The `handleItemChange` editor operation (src/index.js lines 148-162). -/
def handleItemChange (q : Quotation) (itemId : String) (f : ItemNumericField)
    (value : Option ℚ) : Quotation :=
  { q with items := q.items.map (editLineItem itemId f value) }

/-- The text line-item fields handled by `handleTextareaChange`. -/
inductive ItemTextField
  | requirement
  | remark
deriving DecidableEq

/-- The `{...item, [field]: value}` spread of `handleTextareaChange`. -/
def setTextField (item : LineItem) (f : ItemTextField) (v : String) : LineItem :=
  match f with
  | .requirement => { item with requirement := v }
  | .remark => { item with remark := v }

/-- The `handleTextareaChange` editor operation (src/index.js lines
164-171): stores the text verbatim on the matching item. -/
def handleTextareaChange (q : Quotation) (itemId : String) (f : ItemTextField)
    (value : String) : Quotation :=
  { q with items := q.items.map (fun item =>
      if item.id == itemId then setTextField item f value else item) }

/-- The `handleAddItem` editor operation (src/index.js lines 173-178). -/
def handleAddItem (q : Quotation) (freshId : String) : Quotation :=
  { q with items := q.items ++ [getDefaultItem freshId] }

/-- The `handleRemoveItem` editor operation (src/index.js lines 180-187):
filters out the matching item, but only when more than one item is
present (the guard reads the same `items` the update filters). -/
def handleRemoveItem (q : Quotation) (itemId : String) : Quotation :=
  if q.items.length > 1 then
    { q with items := q.items.filter (fun item => item.id != itemId) }
  else q

theorem countP_id_le_one (l : List LineItem) (x : String)
    (h : (l.map LineItem.id).Nodup) :
    l.countP (fun it => it.id == x) ≤ 1 := by
  induction l with
  | nil => simp
  | cons a l ih =>
    rw [List.map_cons, List.nodup_cons] at h
    by_cases ha : a.id = x
    · rw [List.countP_cons_of_pos _ _ (by simp [ha])]
      have hzero : l.countP (fun it => it.id == x) = 0 := by
        rw [List.countP_eq_zero]
        intro b hb
        simp only [beq_iff_eq]
        intro hbx
        exact h.1 (by rw [ha, ← hbx]; exact List.mem_map_of_mem LineItem.id hb)
      omega
    · rw [List.countP_cons_of_neg _ _ (by simp [ha])]
      exact ih h.2

theorem length_le_filter_ne_add_countP (l : List LineItem) (x : String) :
    l.length ≤ (l.filter (fun it => it.id != x)).length +
      l.countP (fun it => it.id == x) := by
  induction l with
  | nil => simp
  | cons a l ih =>
    by_cases h : a.id = x
    · rw [List.filter_cons_of_neg (by simp [h]),
        List.countP_cons_of_pos _ _ (by simp [h])]
      simp only [List.length_cons]
      omega
    · rw [List.filter_cons_of_pos (by simp [h]),
        List.countP_cons_of_neg _ _ (by simp [h])]
      simp only [List.length_cons]
      omega

/-- C3: `removeItem` on a single-item quotation is a no-op, and (for a
quotation whose item ids are distinct, per the data model) every editor
operation preserves the invariant that `items` is never empty. -/
theorem C3_removeItem (q : Quotation) (item : LineItem)
    (itemId freshId : String) (f : ItemNumericField) (tf : ItemTextField)
    (value : Option ℚ) (text : String)
    (hnodup : (q.items.map LineItem.id).Nodup) (hne : q.items ≠ []) :
    handleRemoveItem { q with items := [item] } itemId = { q with items := [item] } ∧
    (handleRemoveItem q itemId).items ≠ [] ∧
    (handleAddItem q freshId).items ≠ [] ∧
    (handleItemChange q itemId f value).items ≠ [] ∧
    (handleTextareaChange q itemId tf text).items ≠ [] := by
  refine ⟨?_, ?_, ?_, ?_, ?_⟩
  · simp [handleRemoveItem]
  · unfold handleRemoveItem
    split
    · next hlen =>
      simp only [ne_eq, ← List.length_pos_iff_ne_nil]
      have hcount := countP_id_le_one q.items itemId hnodup
      have hsplit := length_le_filter_ne_add_countP q.items itemId
      omega
    · exact hne
  · simp [handleAddItem]
  · simp [handleItemChange]
    exact hne
  · simp [handleTextareaChange]
    exact hne

/-- First concrete line item for the C3 witness. -/
def w3a : LineItem :=
  { id := "A", requirement := "", qty := 1, unitPrice := 0, remark := "", amount := 0 }

/-- Second concrete line item for the C3 witness. -/
def w3b : LineItem :=
  { id := "B", requirement := "", qty := 1, unitPrice := 0, remark := "", amount := 0 }

/-- Concrete two-item quotation for the C3 witness. -/
def w3Q : Quotation := { emptyQuotation with items := [w3a, w3b] }

/-- Witness for C3 at a concrete two-item quotation with distinct ids. -/
theorem C3_witness :
    handleRemoveItem { w3Q with items := [w3a] } "A" = { w3Q with items := [w3a] } ∧
    (handleRemoveItem w3Q "A").items ≠ [] ∧
    (handleAddItem w3Q "F").items ≠ [] ∧
    (handleItemChange w3Q "A" ItemNumericField.qty none).items ≠ [] ∧
    (handleTextareaChange w3Q "A" ItemTextField.remark "x").items ≠ [] :=
  C3_removeItem w3Q w3a "A" "F" ItemNumericField.qty ItemTextField.remark
    none "x" (by decide) (by decide)

/-- C4: editing a line item through `handleItemChange` parses the input
numerically with default 0 (`none`, i.e. NaN, behaves exactly like an input
parsing to 0), writes it into `qty`/`unitPrice`, and synchronously
recomputes the matching item's `amount` to `round2 (qty * unitPrice)`;
passing `amount` as the field has no effect beyond the same recomputation
(the written value is discarded), so `amount` is never independently
settable; every item in the result either does not match the id or
satisfies the `amount` invariant. -/
theorem C4_editItem (q : Quotation) (itemId : String) (f : ItemNumericField)
    (value : Option ℚ) (item : LineItem) :
    handleItemChange q itemId f value =
      handleItemChange q itemId f (some (value.getD 0)) ∧
    editLineItem itemId ItemNumericField.qty value { item with id := itemId } =
      recomputeAmount { item with id := itemId, qty := value.getD 0 } ∧
    editLineItem itemId ItemNumericField.unitPrice value { item with id := itemId } =
      recomputeAmount { item with id := itemId, unitPrice := value.getD 0 } ∧
    editLineItem itemId ItemNumericField.amount value { item with id := itemId } =
      recomputeAmount { item with id := itemId } ∧
    (handleItemChange q itemId f value).items.Forall
      (fun it => it.id ≠ itemId ∨ it.amount = round2 (it.qty * it.unitPrice)) := by
  refine ⟨rfl, ?_, ?_, ?_, ?_⟩
  · simp [editLineItem, setNumericField, recomputeAmount]
  · simp [editLineItem, setNumericField, recomputeAmount]
  · simp [editLineItem, setNumericField, recomputeAmount]
  · rw [List.forall_iff_forall_mem]
    intro it hit
    simp only [handleItemChange, List.mem_map] at hit
    obtain ⟨a, _, rfl⟩ := hit
    unfold editLineItem
    split
    · next hid =>
      right
      rcases f <;> simp [setNumericField, recomputeAmount]
    · next hid =>
      left
      simpa using hid

-- Dashboard aggregator (src/index.js lines 482-504).

/-- Lowercasing, modelling `String.prototype.toLowerCase` (ASCII range). -/
def lowerStr (s : String) : String := String.mk (s.data.map Char.toLower)

/-- Whether `needle` occurs at the start of `hay` (character lists). -/
def leadsWith : List Char → List Char → Bool
  | [], _ => true
  | _ :: _, [] => false
  | a :: as, b :: bs => a == b && leadsWith as bs

/-- Whether `needle` occurs contiguously anywhere in `hay`. -/
def hasRun (needle : List Char) : List Char → Bool
  | [] => needle.isEmpty
  | c :: rest => leadsWith needle (c :: rest) || hasRun needle rest

/-- Models `hay.includes(needle)` on strings. -/
def containsStr (hay needle : String) : Bool := hasRun needle.data hay.data

/-- The search predicate of `filteredQuotations` (src/index.js lines
487-489): case-insensitive containment of the term in `clientName` or
`quotationNumber`. -/
def matchesSearch (term : String) (q : Quotation) : Bool :=
  containsStr (lowerStr q.clientName) (lowerStr term) ||
    containsStr (lowerStr q.quotationNumber) (lowerStr term)

/-- The sort comparator `(a, b) => b.createdAt?.getTime() - a.createdAt?.getTime()`
(src/index.js line 490).  When either timestamp is missing the subtraction
yields NaN, which the ECMAScript `SortCompare` operation coerces to `+0`;
that case is therefore modelled as `0`. -/
def sortCompare (a b : Quotation) : ℚ :=
  match b.createdAt, a.createdAt with
  | some tb, some ta => tb - ta
  | _, _ => 0

/-- Stable sort by the comparator, modelling `Array.prototype.sort` (which
ECMAScript requires to be stable): an element goes before another exactly
when the comparator is non-positive, and of comparator-equal elements the
originally earlier one stays first. -/
def sortByCreatedAtDesc (l : List Quotation) : List Quotation :=
  List.insertionSort (fun a b => sortCompare a b ≤ 0) l

/-- The `filteredQuotations` memo of the dashboard (src/index.js lines
485-491): filter by the search term, then sort by `createdAt` descending. -/
def filteredQuotations (qs : List Quotation) (term : String) : List Quotation :=
  sortByCreatedAtDesc (qs.filter (matchesSearch term))

/-- The summand `q.grandTotal && !isNaN(q.grandTotal) ? q.grandTotal : 0`
of the revenue reduction (src/index.js line 501): a missing/NaN value and
the falsy `0` both contribute `0`. -/
def truthyGrandTotal (q : Quotation) : ℚ :=
  match q.grandTotal with
  | some v => if v = 0 then 0 else v
  | none => 0

/-- The dashboard statistics object, from the `stats` memo (src/index.js
lines 493-504). -/
structure DashboardStats where
  total : Nat
  pending : Nat
  accepted : Nat
  revenue : ℚ
deriving DecidableEq

/-- The `stats` computation of the dashboard (src/index.js lines 493-504),
evaluated over the (sorted) filtered list. -/
def dashboardStats (qs : List Quotation) (term : String) : DashboardStats :=
  let filtered := filteredQuotations qs term
  { total := filtered.length
    pending := (filtered.filter (fun q => q.status == "Pending")).length
    accepted := (filtered.filter (fun q => q.status == "Accepted")).length
    revenue := round2 ((filtered.filter (fun q => q.status == "Accepted")).foldl
      (fun sum q => sum + truthyGrandTotal q) 0) }

/-- Modelled from the claim's words: statistics over the unsorted filtered
set, with `revenue` the rounded sum of `grandTotal` over `Accepted`
quotations, treating any non-numeric `grandTotal` as 0. -/
def specStats (qs : List Quotation) (term : String) : DashboardStats :=
  let f := qs.filter (matchesSearch term)
  { total := f.length
    pending := (f.filter (fun q => q.status == "Pending")).length
    accepted := (f.filter (fun q => q.status == "Accepted")).length
    revenue := round2 (((f.filter (fun q => q.status == "Accepted")).map
      (fun q => q.grandTotal.getD 0)).sum) }

theorem truthyGrandTotal_eq (q : Quotation) :
    truthyGrandTotal q = q.grandTotal.getD 0 := by
  rcases h : q.grandTotal with _ | v <;> simp [truthyGrandTotal, h]
  exact fun h0 => h0.symm

theorem foldl_add_truthy (l : List Quotation) (init : ℚ) :
    l.foldl (fun sum q => sum + truthyGrandTotal q) init =
      init + (l.map (fun q => q.grandTotal.getD 0)).sum := by
  induction l generalizing init with
  | nil => simp
  | cons a l ih =>
    simp only [List.foldl_cons, List.map_cons, List.sum_cons]
    rw [ih, truthyGrandTotal_eq]
    ring

theorem hasRun_nil (hay : List Char) : hasRun [] hay = true := by
  cases hay <;> simp [hasRun, leadsWith, List.isEmpty]

theorem matchesSearch_empty (q : Quotation) : matchesSearch "" q = true := by
  have h : lowerStr "" = "" := rfl
  simp [matchesSearch, h, containsStr, hasRun_nil]

/-- Draft quotation of the spec's aggregator example. -/
def exDraftQ : Quotation := { emptyQuotation with id := "d", status := "Draft" }

/-- Pending quotation of the spec's aggregator example. -/
def exPendingQ : Quotation := { emptyQuotation with id := "p", status := "Pending" }

/-- First accepted quotation (total 100) of the spec's aggregator example. -/
def exAcc100 : Quotation :=
  { emptyQuotation with id := "x", status := "Accepted", grandTotal := some 100 }

/-- Second accepted quotation (total 50) of the spec's aggregator example. -/
def exAcc50 : Quotation :=
  { emptyQuotation with id := "y", status := "Accepted", grandTotal := some 50 }

/-- C6: the dashboard statistics equal, over the case-insensitively filtered
set (sorting does not change them), the filtered count, the `Pending` and
`Accepted` counts, and the rounded sum of `grandTotal` over `Accepted`
quotations with non-numeric values treated as 0; the empty term filters
nothing; and the spec's concrete example yields
`total 4, pending 1, accepted 2, revenue 150`. -/
theorem C6_dashboard (qs : List Quotation) (term : String) :
    dashboardStats qs term = specStats qs term ∧
    qs.filter (matchesSearch "") = qs ∧
    dashboardStats [exDraftQ, exPendingQ, exAcc100, exAcc50] "" =
      { total := 4, pending := 1, accepted := 2, revenue := 150 } := by
  refine ⟨?_, ?_, ?_⟩
  · have hperm : List.Perm (filteredQuotations qs term)
        (qs.filter (matchesSearch term)) :=
      List.perm_insertionSort _ _
    simp only [dashboardStats, specStats, DashboardStats.mk.injEq]
    refine ⟨hperm.length_eq, (hperm.filter _).length_eq,
      (hperm.filter _).length_eq, ?_⟩
    rw [foldl_add_truthy, zero_add]
    exact congrArg round2 (((hperm.filter _).map _).sum_eq)
  · rw [List.filter_eq_self]
    intro a _
    exact matchesSearch_empty a
  · have hf : filteredQuotations [exDraftQ, exPendingQ, exAcc100, exAcc50] "" =
        [exDraftQ, exPendingQ, exAcc100, exAcc50] := by
      simp [filteredQuotations, sortByCreatedAtDesc, List.insertionSort,
        List.orderedInsert, sortCompare, matchesSearch_empty, exDraftQ,
        exPendingQ, exAcc100, exAcc50, emptyQuotation]
    have e1 : ("Draft" == "Pending") = false := by decide
    have e2 : ("Pending" == "Pending") = true := by decide
    have e3 : ("Accepted" == "Pending") = false := by decide
    have e4 : ("Draft" == "Accepted") = false := by decide
    have e5 : ("Pending" == "Accepted") = false := by decide
    have e6 : ("Accepted" == "Accepted") = true := by decide
    simp only [dashboardStats, hf, DashboardStats.mk.injEq]
    refine ⟨?_, ?_, ?_, ?_⟩ <;>
      norm_num [exDraftQ, exPendingQ, exAcc100, exAcc50, emptyQuotation,
        List.filter, truthyGrandTotal, round2, e1, e2, e3, e4, e5, e6]

-- C7: dashboard ordering.

/-- The timestamp used for ordering, defaulting to 0 (only ever applied
where `createdAt` is present). -/
def createdTime (q : Quotation) : ℚ := q.createdAt.getD 0

/-- A quotation with no `createdAt`, for the C7 counterexample. -/
def q7m : Quotation := { emptyQuotation with id := "missing", createdAt := none }

/-- A quotation with a `createdAt`, for the C7 counterexample. -/
def q7d : Quotation := { emptyQuotation with id := "dated", createdAt := some 1000 }

/-- C7 (counterexample): an entry with missing `createdAt` is NOT placed
last.  The comparator yields NaN against it, which `SortCompare` coerces to
`+0`, so it compares equal to everything and the stable sort keeps it in
place: sorting `[missing, dated]` returns `[missing, dated]`, not the
`[dated, missing]` the claim requires. -/
theorem C7_cex :
    q7m.createdAt = none ∧
    q7d.createdAt = some 1000 ∧
    filteredQuotations [q7m, q7d] "" = [q7m, q7d] ∧
    filteredQuotations [q7m, q7d] "" ≠ [q7d, q7m] := by
  refine ⟨rfl, rfl, by decide, by decide⟩

theorem sortCompare_le_iff (a b : Quotation) (ta tb : ℚ)
    (ha : a.createdAt = some ta) (hb : b.createdAt = some tb) :
    (sortCompare a b ≤ 0) ↔ tb ≤ ta := by
  simp [sortCompare, ha, hb, sub_nonpos]

theorem sorted_orderedInsert_time (a : Quotation) (l : List Quotation)
    (ha : a.createdAt.isSome) (hl : ∀ x ∈ l, x.createdAt.isSome)
    (hs : List.Sorted (fun x y => createdTime y ≤ createdTime x) l) :
    List.Sorted (fun x y => createdTime y ≤ createdTime x)
      (List.orderedInsert (fun x y => sortCompare x y ≤ 0) a l) := by
  induction l with
  | nil => simp [List.orderedInsert]
  | cons b l ih =>
    have hb : b.createdAt.isSome := hl b (by simp)
    obtain ⟨ta, hta⟩ := Option.isSome_iff_exists.mp ha
    obtain ⟨tb, htb⟩ := Option.isSome_iff_exists.mp hb
    rw [List.sorted_cons] at hs
    simp only [List.orderedInsert]
    split
    · next hr =>
      have hba : createdTime b ≤ createdTime a := by
        have h2 := (sortCompare_le_iff a b ta tb hta htb).mp hr
        simp [createdTime, hta, htb, h2]
      rw [List.sorted_cons]
      constructor
      · intro y hy
        rcases List.mem_cons.mp hy with rfl | hyl
        · exact hba
        · exact le_trans (hs.1 y hyl) hba
      · rw [List.sorted_cons]
        exact hs
    · next hr =>
      have hab : createdTime a ≤ createdTime b := by
        have h2 : ¬ tb ≤ ta := fun hle =>
          hr ((sortCompare_le_iff a b ta tb hta htb).mpr hle)
        have h3 := le_of_not_le h2
        simp [createdTime, hta, htb, h3]
      rw [List.sorted_cons]
      constructor
      · intro y hy
        rw [List.mem_orderedInsert] at hy
        rcases hy with rfl | hyl
        · exact hab
        · exact hs.1 y hyl
      · exact ih (fun x hx => hl x (by simp [hx])) hs.2

theorem sorted_insertionSort_time (l : List Quotation)
    (hl : ∀ x ∈ l, x.createdAt.isSome) :
    List.Sorted (fun x y => createdTime y ≤ createdTime x)
      (List.insertionSort (fun a b => sortCompare a b ≤ 0) l) := by
  induction l with
  | nil => simp [List.insertionSort]
  | cons a l ih =>
    simp only [List.insertionSort]
    apply sorted_orderedInsert_time
    · exact hl a (by simp)
    · intro x hx
      have hmem :=
        (List.perm_insertionSort (fun a b => sortCompare a b ≤ 0) l).mem_iff.mp hx
      exact hl x (by simp [hmem])
    · exact ih (fun x hx => hl x (by simp [hx]))

/-- C7 (amended): the dashboard's filtered list is a permutation of the
filtered collection and, whenever every entry has a present (parseable)
`createdAt`, it is sorted by `createdAt` descending (newest first).  An
entry with missing/unparseable `createdAt` compares equal to every other
entry (the comparator's NaN is coerced to 0), so it keeps its original
relative position under the stable sort instead of being placed last. -/
theorem C7_amended (qs : List Quotation) (term : String)
    (h : ∀ q ∈ qs, q.createdAt.isSome) :
    List.Sorted (fun a b => createdTime b ≤ createdTime a)
      (filteredQuotations qs term) ∧
    List.Perm (filteredQuotations qs term) (qs.filter (matchesSearch term)) := by
  refine ⟨?_, List.perm_insertionSort _ _⟩
  apply sorted_insertionSort_time
  intro x hx
  exact h x (List.mem_of_mem_filter hx)

/-- Newer quotation for the C7 witness. -/
def w7a : Quotation := { emptyQuotation with id := "n", createdAt := some 5 }

/-- Older quotation for the C7 witness. -/
def w7b : Quotation := { emptyQuotation with id := "o", createdAt := some 3 }

/-- Witness for C7 (amended) at a concrete all-dated collection. -/
theorem C7_witness :
    List.Sorted (fun a b => createdTime b ≤ createdTime a)
      (filteredQuotations [w7a, w7b] "") ∧
    List.Perm (filteredQuotations [w7a, w7b] "")
      ([w7a, w7b].filter (matchesSearch "")) :=
  C7_amended [w7a, w7b] "" (by decide)

-- Persistence (src/index.js lines 647-669, src/server.js).

/-- The `finalQuotation` built by `handleSaveQuotation` (src/index.js lines
647-669) just before `setDoc`: the quotation spread together with a fresh
run of the totals computation, a refreshed `dateIssued` and `updatedAt`.
(The editor's save button already passes `{...quotation, ...calculatedTotals}`,
src/index.js line 211; the handler recomputes once more.) -/
def handleSaveQuotation (now : ℚ) (today : String) (q : Quotation) : Quotation :=
  let totals := useQuotationCalculations q
  { q with
    subtotal := some totals.subtotal
    taxAmount := some totals.taxAmount
    grandTotal := some totals.grandTotal
    dateIssued := today
    updatedAt := some now }

/-- The store write `setDoc(docRef, finalQuotation, { merge: true })` keyed
by `finalQuotation.id`: since the payload carries every modelled field, the
merge overwrites the whole record when the id exists and creates it
otherwise. -/
def upsertQuotation (store : List Quotation) (q : Quotation) : List Quotation :=
  if store.any (fun r => r.id == q.id) then
    store.map (fun r => if r.id == q.id then q else r)
  else store ++ [q]

/-- Fetch-one from the store by id. -/
def getQuotation (store : List Quotation) (id : String) : Option Quotation :=
  store.find? (fun r => r.id == id)

theorem find?_id_map_replace (s : List Quotation) (q : Quotation) :
    (s.map (fun r => if r.id == q.id then q else r)).find?
        (fun r => r.id == q.id) =
      if s.any (fun r => r.id == q.id) then some q else none := by
  induction s with
  | nil => rfl
  | cons a s ih =>
    by_cases h : a.id = q.id
    · simp [h]
    · have hbeq : (a.id == q.id) = false := by simp [h]
      simp only [List.map_cons, List.any_cons, hbeq, Bool.false_eq_true,
        Bool.false_or, if_false]
      rw [List.find?_cons_of_neg _ (by simp [hbeq])]
      exact ih

theorem find?_id_append (s : List Quotation) (q : Quotation)
    (h : s.any (fun r => r.id == q.id) = false) :
    (s ++ [q]).find? (fun r => r.id == q.id) = some q := by
  induction s with
  | nil => simp [List.find?]
  | cons a s ih =>
    simp only [List.any_cons, Bool.or_eq_false_iff] at h
    simpa [List.find?_cons_of_neg, h.1] using ih h.2

theorem getQuotation_upsert (store : List Quotation) (q : Quotation) :
    getQuotation (upsertQuotation store q) q.id = some q := by
  unfold getQuotation upsertQuotation
  by_cases h : store.any (fun r => r.id == q.id)
  · rw [if_pos h, find?_id_map_replace, if_pos h]
  · rw [if_neg h, find?_id_append store q (by simpa using h)]

/-- C8: saving runs the totals computation on the quotation being saved
immediately before the persistence write and includes the fresh values in
the payload, so an upsert followed by a get returns a record whose stored
`subtotal`/`taxAmount`/`grandTotal` equal a fresh recomputation from that
record's own `items`/`taxRate`/`discount`. -/
theorem C8_save (store : List Quotation) (q : Quotation) (now : ℚ)
    (today : String) :
    getQuotation (upsertQuotation store (handleSaveQuotation now today q)) q.id =
      some (handleSaveQuotation now today q) ∧
    (handleSaveQuotation now today q).grandTotal =
      some (useQuotationCalculations (handleSaveQuotation now today q)).grandTotal ∧
    (handleSaveQuotation now today q).subtotal =
      some (useQuotationCalculations (handleSaveQuotation now today q)).subtotal ∧
    (handleSaveQuotation now today q).taxAmount =
      some (useQuotationCalculations (handleSaveQuotation now today q)).taxAmount := by
  have hid : q.id = (handleSaveQuotation now today q).id := rfl
  refine ⟨?_, ?_, ?_, ?_⟩
  · rw [hid]
    exact getQuotation_upsert store (handleSaveQuotation now today q)
  · simp [handleSaveQuotation, useQuotationCalculations]
  · simp [handleSaveQuotation, useQuotationCalculations]
  · simp [handleSaveQuotation, useQuotationCalculations]

-- C9: the server delete route.

/-- The `DELETE /api/quotations/:id` handler (src/server.js lines 75-82):
keeps every record whose id differs and always acknowledges success. -/
def deleteQuotationHandler (db : List Quotation) (id : String) :
    List Quotation × Bool :=
  (db.filter (fun item => item.id != id), true)

/-- C9: deletion always acknowledges success (also when the id is absent),
is idempotent, only ever removes records with the given id, and leaves the
remaining records unchanged and in order (the result is the sublist of
records whose id differs). -/
theorem C9_delete (db : List Quotation) (id : String) :
    (deleteQuotationHandler db id).2 = true ∧
    deleteQuotationHandler (deleteQuotationHandler db id).1 id =
      deleteQuotationHandler db id ∧
    List.Sublist (deleteQuotationHandler db id).1 db ∧
    (deleteQuotationHandler db id).1 = db.filter (fun item => item.id != id) ∧
    deleteQuotationHandler (db.filter (fun item => item.id != id)) id =
      (db.filter (fun item => item.id != id), true) := by
  refine ⟨rfl, ?_, List.filter_sublist db, rfl, ?_⟩
  · simp [deleteQuotationHandler, List.filter_filter]
  · simp [deleteQuotationHandler, List.filter_filter]

-- C10: the server create route.

/-- Request body of `POST /api/quotations`, restricted to the
server-generated fields the claim concerns (`none` = the field is absent
from the JSON body; any other body fields are copied through unchanged and
do not interact with these three). -/
structure CreateBody where
  id : Option String
  created_at : Option String
  updated_at : Option String
deriving DecidableEq

/-- Server-generated portion of the record created by
`POST /api/quotations`. -/
structure StoredQuotationRecord where
  id : String
  created_at : String
  updated_at : String
deriving DecidableEq

/-- The record construction `{ id: uuidv4(), created_at: now, updated_at:
now, ...payload }` (src/server.js lines 44-56): the object spread writes
the body's own properties after the generated ones, so a body-supplied
field overrides the server-generated value. -/
def createQuotationRecord (genId nowIso : String) (payload : CreateBody) :
    StoredQuotationRecord :=
  { id := payload.id.getD genId
    created_at := payload.created_at.getD nowIso
    updated_at := payload.updated_at.getD nowIso }

/-- C10: because the body is spread after the generated fields, a body that
carries `id`, `created_at` or `updated_at` overrides the server-generated
value; the created record carries the generated fresh id and timestamps
exactly when the body omits those fields. -/
theorem C10_create (genId nowIso : String) (payload : CreateBody)
    (bid bc bu : String) :
    (createQuotationRecord genId nowIso { payload with id := some bid }).id = bid ∧
    (createQuotationRecord genId nowIso
      { payload with created_at := some bc }).created_at = bc ∧
    (createQuotationRecord genId nowIso
      { payload with updated_at := some bu }).updated_at = bu ∧
    (createQuotationRecord genId nowIso
      { id := none, created_at := none, updated_at := none }).id = genId ∧
    (createQuotationRecord genId nowIso
      { id := none, created_at := none, updated_at := none }).created_at = nowIso ∧
    (createQuotationRecord genId nowIso
      { id := none, created_at := none, updated_at := none }).updated_at = nowIso :=
  ⟨rfl, rfl, rfl, rfl, rfl, rfl⟩
